import Mathlib

/-!
Verification of the KVR Go frontend proxy (`src/frontend/server.js`) against
its natural-language specification.  The Express handlers for login, logout,
transfer and change-pin are embedded as pure Lean functions over an explicit
store state; the Python backend (`app.py`, not present in the repository) is
modelled from the backend README and the spec as a simple list-backed account
store with GET-by-username, GET-by-pin and PATCH operations that return 404
when the user is not found.
-/

namespace KVR

/-- JavaScript number semantics, as far as the handlers need them: NaN, the two
infinities, and finite values (modelled as rationals, per the spec's
"non-negative rational/fixed-point quantity"). -/
inductive JSNum where
  | nan
  | posInf
  | negInf
  | fin (q : ℚ)
deriving DecidableEq, Repr

/-- JS `isNaN` on an already-coerced number. -/
def jsIsNaN : JSNum → Bool
  | .nan => true
  | _ => false

/-- JS `<` comparison: any comparison with NaN is false. -/
def jsLt : JSNum → JSNum → Bool
  | .nan, _ => false
  | _, .nan => false
  | .negInf, .negInf => false
  | .negInf, _ => true
  | _, .negInf => false
  | .posInf, _ => false
  | _, .posInf => true
  | .fin a, .fin b => decide (a < b)

/-- JS `<=` comparison: any comparison with NaN is false. -/
def jsLe : JSNum → JSNum → Bool
  | .nan, _ => false
  | _, .nan => false
  | .negInf, _ => true
  | _, .negInf => false
  | _, .posInf => true
  | .posInf, _ => false
  | .fin a, .fin b => decide (a ≤ b)

/-- JS negation. -/
def jsNeg : JSNum → JSNum
  | .nan => .nan
  | .posInf => .negInf
  | .negInf => .posInf
  | .fin q => .fin (-q)

/-- JS addition: NaN absorbs, opposite infinities give NaN. -/
def jsAdd : JSNum → JSNum → JSNum
  | .nan, _ => .nan
  | _, .nan => .nan
  | .posInf, .negInf => .nan
  | .negInf, .posInf => .nan
  | .posInf, _ => .posInf
  | _, .posInf => .posInf
  | .negInf, _ => .negInf
  | _, .negInf => .negInf
  | .fin a, .fin b => .fin (a + b)

/-- JS subtraction, via addition of the negation. -/
def jsSub (a b : JSNum) : JSNum := jsAdd a (jsNeg b)

/-- The JSON values the handlers receive in request bodies where either a
number or a string may arrive (pins). Numbers are restricted to integers,
which covers every pin the clients send. -/
inductive JSVal where
  | num (n : ℤ)
  | str (s : String)
deriving DecidableEq, Repr

/-- JS `String(x)` coercion as used in `server.js` line 114
(`pin: String(new_pin)`) and in URL interpolation of pins. -/
def jsValToString : JSVal → String
  | .num n => toString n
  | .str s => s

/-- An account record as stored by the backend: username (primary key), pin,
kvrcoin balance, chess points (`src/unnamed/part_000`, backend README). -/
structure Account where
  username : String
  pin : String
  kvrcoin : JSNum
  chess_points : ℤ
deriving DecidableEq, Repr

/-- Modelled from the spec: the backend database is a collection of account
rows keyed by username (the Python `app.py` is not in the repository; its API
is documented in the backend README under `src/unnamed/part_000`). -/
abbrev Store := List Account

/-- Modelled from the spec: backend `GET /users/<username>` — find the account
with the given username; the README documents HTTP 404 when absent, which the
embedding renders as `none`. -/
def getUser (st : Store) (u : String) : Option Account :=
  st.find? (fun a => a.username == u)

/-- Modelled from the spec: backend `GET /users/pin/<pin>` — find the account
with the given pin; 404 (here `none`) when no account has that pin. -/
def getUserByPin (st : Store) (p : String) : Option Account :=
  st.find? (fun a => a.pin == p)

/-- Modelled from the spec: the effect of backend
`PATCH /users/<username> {kvrcoin: v}` on the rows — overwrite the kvrcoin
field of the matching account. -/
def setKvrcoin (st : Store) (u : String) (v : JSNum) : Store :=
  st.map (fun a => if a.username == u then { a with kvrcoin := v } else a)

/-- Modelled from the spec: backend `PATCH /users/<username> {kvrcoin: v}` —
404 (`none`) when the user does not exist, otherwise the updated record and
the updated store. The README documents no other validation on this route. -/
def patchKvrcoin (st : Store) (u : String) (v : JSNum) :
    Option (Account × Store) :=
  (getUser st u).map (fun a => ({ a with kvrcoin := v }, setKvrcoin st u v))

/-- Modelled from the spec: the effect of backend
`PATCH /users/<username> {pin: p}` on the rows. -/
def setPin (st : Store) (u : String) (p : String) : Store :=
  st.map (fun a => if a.username == u then { a with pin := p } else a)

/-- Modelled from the spec: backend `PATCH /users/<username> {pin: p}` — 404
(`none`) when the user does not exist, otherwise the updated record and store.
The spec's design notes say PIN-to-username uniqueness was "originally
implicit", i.e. the original backend enforces no uniqueness check here. -/
def patchPin (st : Store) (u : String) (p : String) :
    Option (Account × Store) :=
  (getUser st u).map (fun a => ({ a with pin := p }, setPin st u p))

/-- A response sent by a frontend handler: a user payload, a bare message, or
an error with its HTTP status (the embedding keeps the status code and a
nominal message; `err 404` stands for a forwarded backend not-found body and
`err 500` for a failed backend fetch). -/
inductive Resp where
  | okUser (user : Account)
  | okMsg (msg : String)
  | err (status : Nat) (msg : String)
deriving DecidableEq, Repr

/-- One backend call made by a handler, recorded in order; the trace lets
theorems speak about which storage accesses a request performs. -/
inductive BCall where
  | getU (username : String)
  | getPin (pin : String)
  | patchCoin (username : String)
  | patchP (username : String)
deriving DecidableEq, Repr

/-- Embedding of `app.post('/api/login')` (`src/frontend/server.js` lines
44–59).  `username`/`pin` are the body fields (`none` = absent); the JS
falsiness test `!username` also rejects the empty string.  A pin that maps to
no account makes `backendFetch` throw with the backend's 404, which the catch
block forwards (`err 404`); a pin that maps to a different user yields
`err 401 "Invalid username or pin"`.  Returns the response and the resulting
session user (`req.session.user`). -/
def loginHandler (username : Option String) (pin : Option JSVal)
    (sessionUser : Option String) (st : Store) : Resp × Option String :=
  match username, pin with
  | none, _ => (.err 400 "username and pin required", sessionUser)
  | some _, none => (.err 400 "username and pin required", sessionUser)
  | some u, some p =>
    if u = "" then (.err 400 "username and pin required", sessionUser)
    else
      match getUserByPin st (jsValToString p) with
      | none => (.err 404 "User not found", sessionUser)
      | some user =>
        if user.username ≠ u then (.err 401 "Invalid username or pin", sessionUser)
        else (.okUser user, some u)

/-- Embedding of `app.post('/api/logout')` (`src/frontend/server.js` lines
61–63): `req.session.destroy` with a callback that ignores any error and
always answers `{message: 'logged out'}`. -/
def logoutHandler (_sessionUser : Option String) : Resp × Option String :=
  (.okMsg "logged out", none)

/-- Embedding of `app.post('/api/transfer')` (`src/frontend/server.js` lines
77–99).  `sessionUser` is `req.session.user`; `to` and `amount` are the body
fields (`none` = absent; JS `!to` also rejects the empty string); `amount` is
given after the `Number(amount)` coercion of line 82, so NaN and the
infinities are representable (e.g. the JSON string "Infinity" coerces to
`posInf`).  `creditFails` is the environment fault oracle for the second
PATCH's `backendFetch` (backend outage or non-ok status): when true that call
rejects after the debit has committed; there is no rollback code.  Returns
the response, the resulting store, and the trace of backend calls made. -/
def transferHandler (sessionUser : Option String) (toField : Option String)
    (amount : Option JSNum) (creditFails : Bool) (st : Store) :
    Resp × Store × List BCall :=
  match sessionUser with
  | none => (.err 401 "not authenticated", st, [])
  | some fromU =>
    match toField, amount with
    | none, _ => (.err 400 "to and amount required", st, [])
    | some _, none => (.err 400 "to and amount required", st, [])
    | some toU, some amt =>
      if toU = "" then (.err 400 "to and amount required", st, [])
      else if jsIsNaN amt || jsLe amt (.fin 0) then
        (.err 400 "invalid amount", st, [])
      else
        match getUser st fromU with
        | none => (.err 404 "User not found", st, [.getU fromU])
        | some sender =>
          match getUser st toU with
          | none => (.err 404 "User not found", st, [.getU fromU, .getU toU])
          | some receiver =>
            if jsLt sender.kvrcoin amt then
              (.err 400 "insufficient funds", st, [.getU fromU, .getU toU])
            else
              match patchKvrcoin st fromU (jsSub sender.kvrcoin amt) with
              | none =>
                (.err 404 "User not found", st,
                  [.getU fromU, .getU toU, .patchCoin fromU])
              | some (_, st1) =>
                if creditFails then
                  (.err 500 "Backend error", st1,
                    [.getU fromU, .getU toU, .patchCoin fromU, .patchCoin toU])
                else
                  match patchKvrcoin st1 toU (jsAdd receiver.kvrcoin amt) with
                  | none =>
                    (.err 404 "User not found", st1,
                      [.getU fromU, .getU toU, .patchCoin fromU, .patchCoin toU])
                  | some (_, st2) =>
                    match getUser st2 fromU with
                    | none =>
                      (.err 404 "User not found", st2,
                        [.getU fromU, .getU toU, .patchCoin fromU,
                          .patchCoin toU, .getU fromU])
                    | some updatedSender =>
                      (.okUser updatedSender, st2,
                        [.getU fromU, .getU toU, .patchCoin fromU,
                          .patchCoin toU, .getU fromU])

/-- Embedding of `app.post('/api/change-pin')` (`src/frontend/server.js`
lines 102–120).  The old pin is looked up via the backend pin index; an
unknown old pin makes `backendFetch` throw the backend's 404, which the catch
block forwards; an old pin resolving to another user yields
`err 401 "Old PIN is incorrect"`.  On success the new pin is stored as
`String(new_pin)` with no further validation. -/
def changePinHandler (sessionUser : Option String)
    (new_pin old_pin : Option JSVal) (st : Store) : Resp × Store :=
  match sessionUser with
  | none => (.err 401 "not authenticated", st)
  | some username =>
    match new_pin, old_pin with
    | none, _ => (.err 400 "new_pin and old_pin required", st)
    | some _, none => (.err 400 "new_pin and old_pin required", st)
    | some np, some op =>
      match getUserByPin st (jsValToString op) with
      | none => (.err 404 "User not found", st)
      | some userByOldPin =>
        if userByOldPin.username ≠ username then
          (.err 401 "Old PIN is incorrect", st)
        else
          match patchPin st username (jsValToString np) with
          | none => (.err 404 "User not found", st)
          | some (updated, st1) => (.okUser updated, st1)

/-- Finite and non-negative balance, the state the spec's non-negativity
invariant speaks about. -/
def jsNonneg : JSNum → Bool
  | .fin q => decide (0 ≤ q)
  | _ => false

/-- A sample store: Alice with balance 100 and pin 1111, Bob with balance 10
and pin 2222 (the spec's scenario accounts). -/
def aliceA : Account := ⟨"alice", "1111", .fin 100, 0⟩

/-- Bob's account in the sample store. -/
def bobA : Account := ⟨"bob", "2222", .fin 10, 0⟩

/-- Carol's account, pin 9999, used for the login-indistinguishability
scenario. -/
def carolA : Account := ⟨"carol", "9999", .fin 5, 0⟩

/-- The two-account scenario store. -/
def st0 : Store := [aliceA, bobA]

/-- The three-account scenario store. -/
def stC : Store := [aliceA, bobA, carolA]

end KVR

namespace KVR

theorem getUser_setKvrcoin_self (st : Store) (u : String) (v : JSNum) (a : Account)
    (h : getUser st u = some a) :
    getUser (setKvrcoin st u v) u = some { a with kvrcoin := v } := by
  induction st with
  | nil => simp [getUser] at h
  | cons b tl ih =>
    by_cases hb : b.username == u
    · simp [getUser, List.find?, hb] at h
      subst h
      simp [getUser, setKvrcoin, List.find?, hb]
    · simp [getUser, List.find?, hb] at h
      have := ih h
      simp [getUser, setKvrcoin, List.find?, hb] at this ⊢
      exact this

theorem getUser_setKvrcoin_other (st : Store) (u w : String) (v : JSNum)
    (h : u ≠ w) :
    getUser (setKvrcoin st w v) u = getUser st u := by
  induction st with
  | nil => simp [getUser, setKvrcoin]
  | cons b tl ih =>
    by_cases hb : b.username == w
    · have hbu : (b.username == u) = false := by
        simp only [beq_iff_eq] at hb ⊢
        rw [hb]
        exact beq_eq_false_iff_ne.mpr (fun hc => h hc.symm)
      simp [getUser, setKvrcoin, List.find?, hb, hbu] at ih ⊢
      exact ih
    · simp [getUser, setKvrcoin, List.find?, hb] at ih ⊢
      by_cases hbu : b.username == u
      · simp [hbu]
      · simp [hbu]
        exact ih

theorem getUser_setPin_self (st : Store) (u : String) (p : String) (a : Account)
    (h : getUser st u = some a) :
    getUser (setPin st u p) u = some { a with pin := p } := by
  induction st with
  | nil => simp [getUser] at h
  | cons b tl ih =>
    by_cases hb : b.username == u
    · simp [getUser, List.find?, hb] at h
      subst h
      simp [getUser, setPin, List.find?, hb]
    · simp [getUser, List.find?, hb] at h
      have := ih h
      simp [getUser, setPin, List.find?, hb] at this ⊢
      exact this

theorem mem_setKvrcoin (st : Store) (u : String) (v : JSNum) (a : Account)
    (ha : a ∈ setKvrcoin st u v) : a.kvrcoin = v ∨ a ∈ st := by
  simp only [setKvrcoin, List.mem_map] at ha
  obtain ⟨b, hb, hba⟩ := ha
  by_cases h : b.username == u
  · left; rw [← hba]; simp [h]
  · right
    rw [← hba]
    simp [h]
    exact hb

theorem amt_fin_of_guards (amt : JSNum) (s : ℚ)
    (h2 : (jsIsNaN amt || jsLe amt (.fin 0)) = false)
    (h3 : jsLt (.fin s) amt = false) :
    ∃ q : ℚ, amt = .fin q ∧ 0 < q ∧ q ≤ s := by
  cases amt with
  | nan => simp [jsIsNaN] at h2
  | posInf => simp [jsLt] at h3
  | negInf => simp [jsIsNaN, jsLe] at h2
  | fin q =>
    refine ⟨q, rfl, ?_, ?_⟩
    · simp [jsIsNaN, jsLe] at h2
      exact h2
    · simp [jsLt] at h3
      exact h3

theorem map_kvrcoin_setPin (st : Store) (u : String) (p : String) :
    (setPin st u p).map Account.kvrcoin = st.map Account.kvrcoin := by
  simp only [setPin, List.map_map]
  congr 1
  funext a
  by_cases h : a.username = u <;> simp [h]

theorem transfer_success (st : Store) (fromU toU : String) (amt s r : ℚ)
    (sender receiver : Account)
    (hne : fromU ≠ toU) (hto : toU ≠ "")
    (hs : getUser st fromU = some sender) (hr : getUser st toU = some receiver)
    (hsb : sender.kvrcoin = .fin s) (hrb : receiver.kvrcoin = .fin r)
    (hpos : 0 < amt) (hle : amt ≤ s) :
    transferHandler (some fromU) (some toU) (some (.fin amt)) false st =
      (.okUser { sender with kvrcoin := .fin (s - amt) },
        setKvrcoin (setKvrcoin st fromU (.fin (s - amt))) toU (.fin (r + amt)),
        [.getU fromU, .getU toU, .patchCoin fromU, .patchCoin toU, .getU fromU]) := by
  have hg2 : (jsIsNaN (JSNum.fin amt) || jsLe (JSNum.fin amt) (.fin 0)) = false := by
    simp [jsIsNaN, jsLe]
    exact hpos
  have hg3 : jsLt sender.kvrcoin (JSNum.fin amt) = false := by
    rw [hsb]
    simp [jsLt]
    exact hle
  have hsubv : jsSub sender.kvrcoin (JSNum.fin amt) = JSNum.fin (s - amt) := by
    rw [hsb]
    simp [jsSub, jsAdd, jsNeg, sub_eq_add_neg]
  have haddv : jsAdd receiver.kvrcoin (JSNum.fin amt) = JSNum.fin (r + amt) := by
    rw [hrb]
    simp [jsAdd]
  have hst1 : patchKvrcoin st fromU (jsSub sender.kvrcoin (JSNum.fin amt)) =
      some ({ sender with kvrcoin := JSNum.fin (s - amt) },
        setKvrcoin st fromU (JSNum.fin (s - amt))) := by
    rw [hsubv]
    simp [patchKvrcoin, hs]
  have hr1 : getUser (setKvrcoin st fromU (JSNum.fin (s - amt))) toU = some receiver := by
    rw [getUser_setKvrcoin_other _ _ _ _ (Ne.symm hne)]
    exact hr
  have hst2 : patchKvrcoin (setKvrcoin st fromU (JSNum.fin (s - amt))) toU
      (jsAdd receiver.kvrcoin (JSNum.fin amt)) =
      some ({ receiver with kvrcoin := JSNum.fin (r + amt) },
        setKvrcoin (setKvrcoin st fromU (JSNum.fin (s - amt))) toU (JSNum.fin (r + amt))) := by
    rw [haddv]
    simp [patchKvrcoin, hr1]
  have hfinal : getUser
      (setKvrcoin (setKvrcoin st fromU (JSNum.fin (s - amt))) toU (JSNum.fin (r + amt)))
      fromU = some { sender with kvrcoin := JSNum.fin (s - amt) } := by
    rw [getUser_setKvrcoin_other _ _ _ _ hne]
    exact getUser_setKvrcoin_self st fromU _ sender hs
  simp only [transferHandler, if_neg hto, hg2, Bool.false_eq_true, if_false,
    hs, hr, hg3, hst1, hst2, hfinal]

theorem transfer_insufficient (st : Store) (fromU toU : String) (amt s : ℚ)
    (cf : Bool) (sender receiver : Account)
    (hs : getUser st fromU = some sender) (hr : getUser st toU = some receiver)
    (hsb : sender.kvrcoin = .fin s) (hgt : s < amt) (hpos : 0 < amt) (hto : toU ≠ "") :
    transferHandler (some fromU) (some toU) (some (.fin amt)) cf st =
      (.err 400 "insufficient funds", st, [.getU fromU, .getU toU]) := by
  have hg2 : (jsIsNaN (JSNum.fin amt) || jsLe (JSNum.fin amt) (.fin 0)) = false := by
    simp [jsIsNaN, jsLe]
    exact hpos
  have hg3 : jsLt sender.kvrcoin (JSNum.fin amt) = true := by
    rw [hsb]
    simp [jsLt]
    exact hgt
  simp only [transferHandler, if_neg hto, hg2, Bool.false_eq_true, if_false,
    hs, hr, hg3, if_true]
theorem transfer_preserves_nonneg (su toF : Option String) (amount : Option JSNum)
    (cf : Bool) (st : Store)
    (h : ∀ a ∈ st, jsNonneg a.kvrcoin = true) :
    ∀ a ∈ (transferHandler su toF amount cf st).2.1, jsNonneg a.kvrcoin = true := by
  intro a ha
  unfold transferHandler at ha
  split at ha
  · exact h a ha
  · split at ha
    · exact h a ha
    · exact h a ha
    · rename_i fromU toF2 amount2 toU amt
      split at ha
      · exact h a ha
      · split at ha
        · exact h a ha
        · rename_i hg2
          split at ha
          · exact h a ha
          · rename_i sender hsv
            split at ha
            · exact h a ha
            · rename_i receiver hrv
              split at ha
              · exact h a ha
              · rename_i hg3
                have hsmem : sender ∈ st := List.mem_of_find?_eq_some hsv
                have hsnn : jsNonneg sender.kvrcoin = true := h sender hsmem
                have hrmem : receiver ∈ st := List.mem_of_find?_eq_some hrv
                have hrnn : jsNonneg receiver.kvrcoin = true := h receiver hrmem
                obtain ⟨s, hsb, hs0⟩ : ∃ s, sender.kvrcoin = .fin s ∧ 0 ≤ s := by
                  cases hk : sender.kvrcoin <;> simp [hk, jsNonneg] at hsnn ⊢
                  exact hsnn
                obtain ⟨r, hrb, hr0⟩ : ∃ r, receiver.kvrcoin = .fin r ∧ 0 ≤ r := by
                  cases hk : receiver.kvrcoin <;> simp [hk, jsNonneg] at hrnn ⊢
                  exact hrnn
                rw [hsb] at hg3
                obtain ⟨q, hq, hq0, hqs⟩ :=
                  amt_fin_of_guards amt s (by simpa using hg2) (by simpa using hg3)
                have hdebit : jsNonneg (jsSub sender.kvrcoin amt) = true := by
                  rw [hsb, hq]
                  simp [jsSub, jsAdd, jsNeg, jsNonneg]
                  linarith
                have hcredit : jsNonneg (jsAdd receiver.kvrcoin amt) = true := by
                  rw [hrb, hq]
                  simp [jsAdd, jsNonneg]
                  linarith
                have hmem1 : ∀ b ∈ setKvrcoin st fromU (jsSub sender.kvrcoin amt),
                    jsNonneg b.kvrcoin = true := by
                  intro b hb
                  rcases mem_setKvrcoin _ _ _ _ hb with hv | hmem
                  · rw [hv]; exact hdebit
                  · exact h b hmem
                have hmem2 : ∀ b ∈ setKvrcoin (setKvrcoin st fromU (jsSub sender.kvrcoin amt))
                    toU (jsAdd receiver.kvrcoin amt), jsNonneg b.kvrcoin = true := by
                  intro b hb
                  rcases mem_setKvrcoin _ _ _ _ hb with hv | hmem
                  · rw [hv]; exact hcredit
                  · exact hmem1 b hmem
                split at ha
                · exact h a ha
                · rename_i fst1 st1 hp1
                  obtain ⟨a1, ha1, hfst1, hst1⟩ :
                      ∃ a1, getUser st fromU = some a1 ∧
                        ({ a1 with kvrcoin := jsSub sender.kvrcoin amt } = fst1 ∧
                          setKvrcoin st fromU (jsSub sender.kvrcoin amt) = st1) := by
                    simpa [patchKvrcoin, Option.map_eq_some'] using hp1
                  split at ha
                  · rw [← hst1] at ha
                    exact hmem1 a ha
                  · split at ha
                    · rw [← hst1] at ha
                      exact hmem1 a ha
                    · rename_i fst2 st2 hp2
                      rw [← hst1] at hp2
                      obtain ⟨a2, ha2, hfst2, hst2⟩ :
                          ∃ a2, getUser (setKvrcoin st fromU (jsSub sender.kvrcoin amt)) toU
                              = some a2 ∧
                            ({ a2 with kvrcoin := jsAdd receiver.kvrcoin amt } = fst2 ∧
                              setKvrcoin (setKvrcoin st fromU (jsSub sender.kvrcoin amt)) toU
                                (jsAdd receiver.kvrcoin amt) = st2) := by
                        simpa [patchKvrcoin, Option.map_eq_some'] using hp2
                      split at ha
                      · rw [← hst2] at ha
                        exact hmem2 a ha
                      · rw [← hst2] at ha
                        exact hmem2 a ha
theorem changePin_preserves_balances (su : Option String) (np op : Option JSVal)
    (st : Store) :
    ((changePinHandler su np op st).2).map Account.kvrcoin = st.map Account.kvrcoin := by
  unfold changePinHandler
  split
  · rfl
  · split
    · rfl
    · rfl
    · split
      · rfl
      · split
        · rfl
        · split
          · rfl
          · rename_i upd stA hp
            simp only [patchPin, Option.map_eq_some'] at hp
            obtain ⟨a, ha, hupd, hstA⟩ := hp
            simpa using map_kvrcoin_setPin _ _ _

theorem changePin_rejects_bad_old_pin (st : Store) (u : String) (np op : JSVal) :
    (getUserByPin st (jsValToString op) = none →
      changePinHandler (some u) (some np) (some op) st =
        (.err 404 "User not found", st)) ∧
    (∀ w, getUserByPin st (jsValToString op) = some w → w.username ≠ u →
      changePinHandler (some u) (some np) (some op) st =
        (.err 401 "Old PIN is incorrect", st)) := by
  constructor
  · intro hnone
    simp only [changePinHandler, hnone]
  · intro w hw hne
    simp only [changePinHandler, hw, if_pos hne]

theorem changePin_stores_string_pin (st : Store) (u : String) (np op : JSVal)
    (w : Account) (hop : getUserByPin st (jsValToString op) = some w)
    (hw : w.username = u) :
    ∃ a, getUser st u = some a ∧
      changePinHandler (some u) (some np) (some op) st =
        (.okUser { a with pin := jsValToString np }, setPin st u (jsValToString np)) ∧
      (getUser (setPin st u (jsValToString np)) u).map Account.pin =
        some (jsValToString np) ∧
      jsValToString (.num 1234) = jsValToString (.str "1234") := by
  have hwmem : w ∈ st := List.mem_of_find?_eq_some hop
  have hsome : (getUser st u).isSome := by
    rw [getUser, List.find?_isSome]
    exact ⟨w, hwmem, by simp [hw]⟩
  obtain ⟨a, ha⟩ := Option.isSome_iff_exists.mp hsome
  refine ⟨a, ha, ?_, ?_, rfl⟩
  · have hnotne : ¬ w.username ≠ u := by simp [hw]
    simp only [changePinHandler, hop, if_neg hnotne, patchPin, ha, Option.map_some']
  · rw [getUser_setPin_self st u _ a ha]
    rfl

/-- C1: the claim says a failed credit after a committed debit is rolled back
before the error surfaces.  The code performs two independent PATCH calls with
no rollback: when the second PATCH (credit) fails, the response is an error
yet the store shows Alice debited (100 → 70) and Bob not credited (still 10) —
a partially committed transfer is left behind. -/
theorem c1_credit_failure_leaves_partial_debit :
    transferHandler (some "alice") (some "bob") (some (.fin 30)) true st0 =
      (.err 500 "Backend error",
        [⟨"alice", "1111", .fin 70, 0⟩, bobA],
        [.getU "alice", .getU "bob", .patchCoin "alice", .patchCoin "bob"]) ∧
    getUser st0 "alice" = some aliceA ∧ aliceA.kvrcoin = .fin 100 ∧
    getUser st0 "bob" = some bobA ∧ bobA.kvrcoin = .fin 10 := by
  refine ⟨?_, rfl, rfl, rfl, rfl⟩
  simp [transferHandler, st0, aliceA, bobA, getUser, patchKvrcoin, setKvrcoin,
    jsSub, jsAdd, jsNeg, jsLt, jsLe, jsIsNaN, List.find?]
  norm_num

/-- C2: the claim says a transfer whose destination equals the sender is
rejected with InvalidTransfer and leaves all state unchanged.  The code has no
self-transfer check: Alice (balance 100) transferring 30 to herself succeeds,
and because the credit uses the stale pre-debit read, her balance becomes 130 —
the operation mints 30 coins instead of being rejected. -/
theorem c2_self_transfer_accepted_and_mints :
    transferHandler (some "alice") (some "alice") (some (.fin 30)) false st0 =
      (.okUser ⟨"alice", "1111", .fin 130, 0⟩,
        [⟨"alice", "1111", .fin 130, 0⟩, bobA],
        [.getU "alice", .getU "alice", .patchCoin "alice", .patchCoin "alice",
          .getU "alice"]) ∧
    getUser st0 "alice" = some aliceA ∧ aliceA.kvrcoin = .fin 100 := by
  refine ⟨?_, rfl, rfl⟩
  simp [transferHandler, st0, aliceA, bobA, getUser, patchKvrcoin, setKvrcoin,
    jsSub, jsAdd, jsNeg, jsLt, jsLe, jsIsNaN, List.find?]
  norm_num

/-- C3: the claim says "PIN maps to no account" and "PIN maps to an account
with a different username" produce the same InvalidCredentials error.  In the
code the first case surfaces the backend's 404 (the thrown backendFetch error
is forwarded before the uniform check can run) while the second returns 401
"Invalid username or pin": the two responses differ, so the failure causes are
distinguishable to the caller. -/
theorem c3_login_failure_modes_distinguishable :
    getUserByPin stC "9999" = some carolA ∧ carolA.username ≠ "alice" ∧
    getUserByPin stC "5555" = none ∧
    (loginHandler (some "alice") (some (.str "9999")) none stC).1 =
      .err 401 "Invalid username or pin" ∧
    (loginHandler (some "alice") (some (.str "5555")) none stC).1 =
      .err 404 "User not found" ∧
    (loginHandler (some "alice") (some (.str "9999")) none stC).1 ≠
      (loginHandler (some "alice") (some (.str "5555")) none stC).1 := by
  refine ⟨rfl, by decide, rfl, ?_, ?_, ?_⟩
  · simp [loginHandler, stC, aliceA, bobA, carolA, getUserByPin, jsValToString,
      List.find?]
  · simp [loginHandler, stC, aliceA, bobA, carolA, getUserByPin, jsValToString,
      List.find?]
  · simp [loginHandler, stC, aliceA, bobA, carolA, getUserByPin, jsValToString,
      List.find?]

/-- C4: for every transfer between two distinct existing accounts that takes
the success path (positive amount, sufficient funds, both PATCH calls
succeed), the sender's balance decreases by exactly the amount, the receiver's
increases by exactly the amount, the sum of the two balances is unchanged, and
the response returns the sender's refreshed account. -/
theorem c4_transfer_conservation (st : Store) (fromU toU : String)
    (amt s r : ℚ) (sender receiver : Account)
    (hne : fromU ≠ toU) (hto : toU ≠ "")
    (hs : getUser st fromU = some sender) (hr : getUser st toU = some receiver)
    (hsb : sender.kvrcoin = .fin s) (hrb : receiver.kvrcoin = .fin r)
    (hpos : 0 < amt) (hle : amt ≤ s) :
    ∃ st2,
      transferHandler (some fromU) (some toU) (some (.fin amt)) false st =
        (.okUser { sender with kvrcoin := .fin (s - amt) }, st2,
          [.getU fromU, .getU toU, .patchCoin fromU, .patchCoin toU,
            .getU fromU]) ∧
      (getUser st2 fromU).map Account.kvrcoin = some (.fin (s - amt)) ∧
      (getUser st2 toU).map Account.kvrcoin = some (.fin (r + amt)) ∧
      (s - amt) + (r + amt) = s + r := by
  have hr1 : getUser (setKvrcoin st fromU (.fin (s - amt))) toU = some receiver := by
    rw [getUser_setKvrcoin_other _ _ _ _ (Ne.symm hne)]
    exact hr
  refine ⟨setKvrcoin (setKvrcoin st fromU (.fin (s - amt))) toU (.fin (r + amt)),
    transfer_success st fromU toU amt s r sender receiver hne hto hs hr hsb hrb
      hpos hle, ?_, ?_, by ring⟩
  · rw [getUser_setKvrcoin_other _ _ _ _ hne,
      getUser_setKvrcoin_self st fromU _ sender hs]
    rfl
  · rw [getUser_setKvrcoin_self _ toU _ receiver hr1]
    rfl

/-- Witness for C4 at the spec scenario: Alice (100) transfers 30 to Bob (10),
leaving 70 and 40 with the sum conserved. -/
theorem c4_transfer_conservation_witness :
    ∃ st2,
      transferHandler (some "alice") (some "bob") (some (.fin 30)) false st0 =
        (.okUser { aliceA with kvrcoin := .fin (100 - 30) }, st2,
          [.getU "alice", .getU "bob", .patchCoin "alice", .patchCoin "bob",
            .getU "alice"]) ∧
      (getUser st2 "alice").map Account.kvrcoin = some (.fin (100 - 30)) ∧
      (getUser st2 "bob").map Account.kvrcoin = some (.fin (10 + 30)) ∧
      ((100 : ℚ) - 30) + (10 + 30) = 100 + 10 :=
  c4_transfer_conservation st0 "alice" "bob" 30 100 10 aliceA bobA
    (by decide) (by decide) rfl rfl rfl rfl (by norm_num) (by norm_num)

/-- C5: a transfer whose amount exceeds the sender's balance fails with the
insufficient-funds error and returns the store unchanged (first conjunct); the
transfer handler never drives any stored balance below zero, on any path
including faults (second conjunct); and the change-pin handler never touches
any balance (third conjunct). -/
theorem c5_insufficient_funds_and_nonnegativity :
    (∀ (st : Store) (fromU toU : String) (amt s : ℚ) (cf : Bool)
        (sender receiver : Account),
      getUser st fromU = some sender → getUser st toU = some receiver →
      sender.kvrcoin = .fin s → s < amt → 0 < amt → toU ≠ "" →
      transferHandler (some fromU) (some toU) (some (.fin amt)) cf st =
        (.err 400 "insufficient funds", st, [.getU fromU, .getU toU])) ∧
    (∀ (su toF : Option String) (amount : Option JSNum) (cf : Bool) (st : Store),
      (∀ a ∈ st, jsNonneg a.kvrcoin = true) →
      ∀ a ∈ (transferHandler su toF amount cf st).2.1,
        jsNonneg a.kvrcoin = true) ∧
    (∀ (su : Option String) (np op : Option JSVal) (st : Store),
      ((changePinHandler su np op st).2).map Account.kvrcoin =
        st.map Account.kvrcoin) :=
  ⟨fun st fromU toU amt s cf sender receiver hs hr hsb hgt hpos hto =>
      transfer_insufficient st fromU toU amt s cf sender receiver hs hr hsb
        hgt hpos hto,
    transfer_preserves_nonneg, changePin_preserves_balances⟩

/-- Witness for C5 at the spec scenario: Alice (100) tries to transfer 200 to
Bob — the request fails with insufficient funds and the store is unchanged. -/
theorem c5_insufficient_funds_and_nonnegativity_witness :
    transferHandler (some "alice") (some "bob") (some (.fin 200)) false st0 =
      (.err 400 "insufficient funds", st0, [.getU "alice", .getU "bob"]) :=
  c5_insufficient_funds_and_nonnegativity.1 st0 "alice" "bob" 200 100 false
    aliceA bobA rfl rfl rfl (by norm_num) (by norm_num) (by decide)

/-- C6: the claim says every non-finite, negative or zero amount is rejected
before any storage access.  The validation `isNaN(amt) || amt <= 0` does
reject NaN (empty trace, third conjunct) but does not reject positive
Infinity: that amount passes the check (first two conjuncts) and the handler
then reads both accounts from storage — the trace of the run contains two GET
calls — before failing with insufficient funds. -/
theorem c6_infinite_amount_not_rejected_before_storage :
    jsIsNaN .posInf = false ∧ jsLe .posInf (.fin 0) = false ∧
    transferHandler (some "alice") (some "bob") (some .posInf) false st0 =
      (.err 400 "insufficient funds", st0, [.getU "alice", .getU "bob"]) ∧
    transferHandler (some "alice") (some "bob") (some .nan) false st0 =
      (.err 400 "invalid amount", st0, []) := by
  refine ⟨rfl, rfl, ?_, ?_⟩
  · simp [transferHandler, st0, aliceA, bobA, getUser, jsLt, jsLe, jsIsNaN,
      List.find?]
  · simp [transferHandler, jsLt, jsLe, jsIsNaN]

/-- C7 counterexample: the claim says an old PIN that maps to no account fails
with InvalidCredentials.  With old pin 7777 mapped to no account, the handler
instead forwards the backend's 404 not-found error (the InvalidCredentials
response of this route is 401 "Old PIN is incorrect"); the store is unchanged. -/
theorem c7_unknown_old_pin_gives_not_found :
    getUserByPin st0 "7777" = none ∧
    changePinHandler (some "alice") (some (.str "5555")) (some (.str "7777")) st0 =
      (.err 404 "User not found", st0) ∧
    Resp.err 404 "User not found" ≠ Resp.err 401 "Old PIN is incorrect" := by
  refine ⟨rfl, ?_, by decide⟩
  simp [changePinHandler, st0, aliceA, bobA, getUserByPin, jsValToString,
    List.find?]

/-- C7 (amended): the old PIN is re-verified against the session's username
before any update: if it maps to no account the handler fails with the
backend's 404 not-found error, if it maps to a different account it fails with
401 InvalidCredentials ("Old PIN is incorrect"); in both cases the store — in
particular every account's PIN — is unchanged and no PATCH is issued. -/
theorem c7_old_pin_verified_before_update (st : Store) (u : String)
    (np op : JSVal) :
    (getUserByPin st (jsValToString op) = none →
      changePinHandler (some u) (some np) (some op) st =
        (.err 404 "User not found", st)) ∧
    (∀ w, getUserByPin st (jsValToString op) = some w → w.username ≠ u →
      changePinHandler (some u) (some np) (some op) st =
        (.err 401 "Old PIN is incorrect", st)) :=
  changePin_rejects_bad_old_pin st u np op

/-- Witness for C7: with an unknown old pin the response is the 404 error and
the store is unchanged; with Alice's pin supplied in Bob's session the
response is 401 and the store is unchanged. -/
theorem c7_old_pin_verified_before_update_witness :
    changePinHandler (some "alice") (some (.str "4242")) (some (.str "3333")) st0 =
      (.err 404 "User not found", st0) ∧
    changePinHandler (some "bob") (some (.str "4242")) (some (.str "1111")) st0 =
      (.err 401 "Old PIN is incorrect", st0) :=
  ⟨(c7_old_pin_verified_before_update st0 "alice" (.str "4242") (.str "3333")).1
      rfl,
    (c7_old_pin_verified_before_update st0 "bob" (.str "4242") (.str "1111")).2
      aliceA rfl (by decide)⟩

/-- C8: the claim says a change-pin request whose new PIN already belongs to a
different account fails with PinAlreadyInUse, and that after success exactly
one account maps to the new PIN.  The code performs no uniqueness check:
Alice changing her pin to Bob's pin 2222 succeeds, after which two accounts
map to pin 2222. -/
theorem c8_duplicate_pin_accepted :
    getUserByPin st0 "2222" = some bobA ∧ bobA.username ≠ "alice" ∧
    changePinHandler (some "alice") (some (.str "2222")) (some (.str "1111")) st0 =
      (.okUser ⟨"alice", "2222", .fin 100, 0⟩,
        [⟨"alice", "2222", .fin 100, 0⟩, bobA]) ∧
    ((changePinHandler (some "alice") (some (.str "2222")) (some (.str "1111"))
        st0).2.filter (fun a => a.pin == "2222")).length = 2 := by
    refine ⟨rfl, by decide, ?_, ?_⟩
    · simp [changePinHandler, st0, aliceA, bobA, getUserByPin, patchPin, getUser,
        setPin, jsValToString, List.find?]
    · simp [changePinHandler, st0, aliceA, bobA, getUserByPin, patchPin, getUser,
        setPin, jsValToString, List.find?, List.filter]

/-- C9: logout (revocation) is idempotent: for every session state, including
one with no authenticated user (an already-invalid or already-revoked token),
the handler answers "logged out" without error, and a second call on the
resulting session state gives the same successful answer. -/
theorem c9_revoke_idempotent :
    ∀ s : Option String,
      (logoutHandler s).1 = .okMsg "logged out" ∧
      (logoutHandler (logoutHandler s).2).1 = .okMsg "logged out" ∧
      logoutHandler (logoutHandler s).2 = logoutHandler s :=
  fun _ => ⟨rfl, rfl, rfl⟩

/-- C10: for every change-pin request that passes old-PIN verification, the
stored pin becomes exactly the JS String coercion of the supplied value, with
no format or range validation — the numeric 1234 and the string "1234" coerce
to the same stored PIN, and arbitrary non-numeric strings are accepted (the
witness stores "abcd"). -/
theorem c10_pin_stored_as_string_coercion (st : Store) (u : String)
    (np op : JSVal) (w : Account)
    (hop : getUserByPin st (jsValToString op) = some w) (hw : w.username = u) :
    ∃ a, getUser st u = some a ∧
      changePinHandler (some u) (some np) (some op) st =
        (.okUser { a with pin := jsValToString np },
          setPin st u (jsValToString np)) ∧
      (getUser (setPin st u (jsValToString np)) u).map Account.pin =
        some (jsValToString np) ∧
      jsValToString (.num 1234) = jsValToString (.str "1234") :=
  changePin_stores_string_pin st u np op w hop hw

/-- Witness for C10: Alice changes her pin to the non-numeric string "abcd";
the stored pin is exactly "abcd" and the numeric/string coercion agreement is
evaluated. -/
theorem c10_pin_stored_as_string_coercion_witness :
    ∃ a, getUser st0 "alice" = some a ∧
      changePinHandler (some "alice") (some (.str "abcd")) (some (.str "1111"))
          st0 =
        (.okUser { a with pin := jsValToString (.str "abcd") },
          setPin st0 "alice" (jsValToString (.str "abcd"))) ∧
      (getUser (setPin st0 "alice" (jsValToString (.str "abcd")))
          "alice").map Account.pin = some (jsValToString (.str "abcd")) ∧
      jsValToString (.num 1234) = jsValToString (.str "1234") :=
  c10_pin_stored_as_string_coercion st0 "alice" (.str "abcd") (.str "1111")
    aliceA rfl rfl

end KVR
